import Mathlib

/-!
A shallow embedding of the NaviMed scheduler queue core: the classes
`PatientScorer` and `DynamicQueueManager` of `src/backend/queue_manager.py`,
and the queue endpoints `get_next_patient_rl` and `get_current_queue` of
`src/backend/main.py`, together with theorems settling the specification
claims about them.

Conventions of the embedding:
* Python floats are modelled as exact rationals (every arithmetic operation
  performed by this code on scores is exact on the values it actually uses).
* Python dicts with a fixed key set are modelled as structures; the two keys
  that the emergency item omits are modelled as `Option` fields.
* Database reads (`session.exec(select(...)).all()`, `session.get`) are
  modelled as reads of explicit lists carried in a `Db` value, returned in
  insertion order.
* The RL service (`rl_service.get_scheduling_recommendation`) is modelled as
  an `Oracle` function; `none` models a raised exception or a `None` reply
  (both leave the item unchanged apart from the logged warning), and
  `some r` models a returned dict whose optional `urgency_boost` field is
  `r`.
* `logger.warning` output is modelled by the `_log` variants, which return
  the list of warning messages next to their result (exception text elided
  from the message).
-/

namespace NaviMed

/-- Character-level test that `pat` occurs at the start of `hay`. -/
def takesLead : List Char → List Char → Bool
  | [], _ => true
  | _ :: _, [] => false
  | a :: as, b :: bs => a == b && takesLead as bs

/-- Character-level test that `pat` occurs somewhere inside `hay`
(Python's `pat in hay` on strings). -/
def containsSeq (pat : List Char) : List Char → Bool
  | [] => takesLead pat []
  | b :: bs => takesLead pat (b :: bs) || containsSeq pat bs

/-- Python's `str.lower()` (character-wise, matching `str.map Char.toLower`). -/
def pyLower (s : String) : String := String.mk (s.data.map Char.toLower)

/-- Python's `str.capitalize()`: first character upper-cased, the rest
lower-cased. -/
def pyCapitalize (s : String) : String :=
  match s.toList with
  | [] => ""
  | c :: rest => String.mk (c.toUpper :: rest.map Char.toLower)

/-- The fields of `models.Patient` that the queue core reads (the SQLModel
class has further columns, none of which this code touches). -/
structure Patient where
  id : Nat
  name : String
  age : Int
  conditions : Option String
  risk_level : String
  no_show_probability : ℚ
deriving Repr, DecidableEq

/-- The fields of `models.Appointment` that the queue core reads. -/
structure Appointment where
  patient_id : Nat
  appointment_type : String
  status : String
deriving Repr, DecidableEq

/-- A raw entry of the global `appointment_queue` list built by
`book_appointment_rl` (only the keys the modelled code reads). -/
structure QueueEntry where
  patient_id : Nat
  appointment_type : String
  is_emergency : Bool
  queue_timestamp : String
deriving Repr, DecidableEq

/-- The database state visible through the session. -/
structure Db where
  patients : List Patient
  appointments : List Appointment
deriving Repr, DecidableEq

/-! ### PatientScorer (queue_manager.py lines 14-66) -/

/-- The lookup `risk_scores.get(patient.risk_level.lower(), 10)`. -/
def risk_scores (r : String) : ℚ :=
  if r = "high" then 30 else if r = "medium" then 20 else if r = "low" then 10 else 10

/-- The lookup `type_scores.get(appointment_type.lower(), 5)`. -/
def type_scores (t : String) : ℚ :=
  if t = "emergency" then 15 else if t = "urgent" then 12 else if t = "follow_up" then 8
  else if t = "consultation" then 5 else if t = "checkup" then 3 else 5

/-- The chronic-condition keyword list. -/
def chronic_conditions : List String :=
  ["diabetes", "hypertension", "heart", "cancer", "kidney", "liver"]

/-- The truthiness test `patient.conditions and patient.conditions.lower() != "none"` (a `None`
value and the empty string are falsy). -/
def has_conditions : Option String → Bool
  | none => false
  | some s => s ≠ "" && pyLower s ≠ "none"

/-- The condition-severity block of `calculate_patient_score`. -/
def condition_score : Option String → ℚ
  | none => 0
  | some s =>
    if s ≠ "" && pyLower s ≠ "none" then
      if chronic_conditions.any (fun k => containsSeq k.toList (pyLower s).toList) then 25
      else 15
    else 0

/-- The age block of `calculate_patient_score`. -/
def age_score (age : Int) : ℚ :=
  if age ≥ 65 then 20 else if age ≤ 5 then 15 else if age ≤ 18 then 10 else 0

/-- The no-show block of `calculate_patient_score`
(`getattr(patient, 'no_show_probability', 0.15)` always finds the field,
which the model exists on every `Patient`). -/
def no_show_score (p : ℚ) : ℚ :=
  if p > 3/10 then -10 else if p < 1/10 then 5 else 0

/-- The static method `PatientScorer.calculate_patient_score`. -/
def calculate_patient_score (patient : Patient) (appointment_type : String)
    (emergency : Bool) : ℚ :=
  if emergency then 100
  else
    max (risk_scores (pyLower patient.risk_level) + age_score patient.age
      + condition_score patient.conditions + type_scores (pyLower appointment_type)
      + no_show_score patient.no_show_probability) 1

/-! ### DynamicQueueManager.calculate_queue_order (queue_manager.py lines 75-269)

The method takes the database session and an optional `appointment_queue`
argument.  The argument is only ever inspected for truthiness and searched,
so passing `None` and passing the empty list are indistinguishable; the model
uses a plain list, with `[]` standing for both. -/

/-- The RL service, `rl_service.get_scheduling_recommendation`, called with
`(patient_id, appointment_type, priority)` (the `emergency` argument is the
constant `False` at this call site).  `none` models a raised exception or a
`None` reply; `some r` models a dict whose optional `urgency_boost` is `r`. -/
abbrev Oracle := Nat → String → String → Option (Option ℚ)

/-- The internal `patient_item` dict built by the scoring loop. -/
structure Item where
  patient : Patient
  score : ℚ
  appointment_type : String
  is_emergency : Bool
  wait_time_minutes : Nat
  rl_recommendation : Option (Option ℚ)
deriving Repr, DecidableEq

/-- The helper `DynamicQueueManager._calculate_wait_time` (base 15, adjusted by risk
level; the comparisons here use the raw string, without `.lower()`). -/
def calculate_wait_time (patient : Patient) : Nat :=
  let base_wait := 15
  if patient.risk_level = "high" then base_wait
  else if patient.risk_level = "medium" then base_wait + 10
  else base_wait + 20

/-- The set `scheduled_patient_ids = set(apt.patient_id for apt in appointments if
apt.status == "scheduled")`. -/
def scheduled_patient_ids (appointments : List Appointment) : List Nat :=
  (appointments.filter (fun a => a.status == "scheduled")).map (fun a => a.patient_id)

/-- The list `waiting_patients = [p for p in patients if p.id not in
scheduled_patient_ids]`. -/
def waiting_patients (patients : List Patient) (appointments : List Appointment) :
    List Patient :=
  patients.filter (fun p => decide (p.id ∉ scheduled_patient_ids appointments))

/-- The per-patient resolution of `appointment_type` / `is_emergency`:
defaults, then the patient's entry in `appointment_queue` (first match), then
the first pending appointment, whose type can force the emergency flag. -/
def resolve_type_emergency (appointments : List Appointment)
    (queue : List QueueEntry) (p : Patient) : String × Bool :=
  let defaults := ("consultation", false)
  let fromQueue :=
    match queue.find? (fun q => q.patient_id == p.id) with
    | some q => (q.appointment_type, q.is_emergency)
    | none => defaults
  match appointments.filter (fun a => a.patient_id == p.id && a.status == "pending") with
  | [] => fromQueue
  | a :: _ =>
    (a.appointment_type,
     if pyLower a.appointment_type = "emergency" then true else fromQueue.2)

/-- Build one `patient_item` dict (queue_manager.py lines 100-131). -/
def mk_item (appointments : List Appointment) (queue : List QueueEntry)
    (p : Patient) : Item :=
  let te := resolve_type_emergency appointments queue p
  { patient := p
    score := calculate_patient_score p te.1 te.2
    appointment_type := te.1
    is_emergency := te.2
    wait_time_minutes := calculate_wait_time p
    rl_recommendation := none }

/-- The partition performed by the scoring loop: every waiting patient whose
id equals `first_appointment_patient_id` overwrites `first_appointment_item`
(so the last match wins), all others are appended to `scored_patients` in
iteration order. -/
def split_items (mk : Patient → Item) (firstId : Option Nat) :
    List Patient → Option Item × List Item
  | [] => (none, [])
  | p :: rest =>
    let item := mk p
    let s := split_items mk firstId rest
    if some p.id = firstId then (some (s.1.getD item), s.2) else (s.1, item :: s.2)

/-- The pair `first_appointment_patient_id` together with `scored_patients` just before
the RL pass (queue_manager.py lines 82-138). -/
def pre_rl_items (db : Db) (queue : List QueueEntry) : Option Item × List Item :=
  let firstId := queue.head?.map (fun q => q.patient_id)
  split_items (mk_item db.appointments queue) firstId
    (waiting_patients db.patients db.appointments)

/-- The test `if rl_rec and rl_rec.get("urgency_boost"):` — the boost is applied only
when the reply is a dict holding a truthy (non-zero) boost. -/
def truthy_boost : Option ℚ → Bool
  | none => false
  | some b => b != 0

/-- One iteration of the RL loop (queue_manager.py lines 141-157), returning
the updated item and any warning logged for it. -/
def apply_rl_one (oracle : Oracle) (it : Item) : Item × List String :=
  match oracle it.patient.id it.appointment_type it.patient.risk_level with
  | none =>
    (it, ["RL recommendation failed for patient " ++ toString it.patient.id])
  | some r =>
    let it' := { it with rl_recommendation := some r }
    (if truthy_boost r then { it' with score := it'.score + r.getD 0 } else it', [])

/-- The RL loop runs over `scored_patients[:10]` (the list is not yet
sorted, so these are the first ten in patient-iteration order); items past
the tenth are untouched. -/
def apply_rl (oracle : Oracle) (l : List Item) : List Item × List String :=
  let updated := (l.take 10).map (fun it => apply_rl_one oracle it)
  (updated.map (fun u => u.1) ++ l.drop 10, updated.flatMap (fun u => u.2))

/-- One step of the stable descending sort: insert `a` before the first
element whose score does not exceed `a`'s, so that earlier-listed items win
ties. -/
def insert_desc (a : Item) : List Item → List Item
  | [] => [a]
  | b :: bs => if b.score ≤ a.score then a :: b :: bs else b :: insert_desc a bs

/-- The call `scored_patients.sort(key=lambda x: x["score"], reverse=True)`:
CPython's `list.sort` is a stable sort, and all stable sorts of the same key
order compute the same list, so it is modelled by a stable insertion sort,
descending on score with ties keeping their original relative order. -/
def sort_scored : List Item → List Item
  | [] => []
  | a :: l => insert_desc a (sort_scored l)

/-- The `appointment_durations` table with its `.get(..., 15)` default
(queue_manager.py lines 166-178, repeated in main.py's get_current_queue). -/
def appointment_durations (t : String) : Nat :=
  if t = "general_checkup" then 15
  else if t = "followup" then 12
  else if t = "diagnostics" then 30
  else if t = "consultation_routine" then 25
  else if t = "consultation_urgent" then 40
  else if t = "emergency" then 60
  else if t = "consultation" then 25
  else if t = "checkup" then 15
  else if t = "follow_up" then 12
  else if t = "urgent" then 40
  else 15

/-- Banker's rounding of an exact rational to an integer. -/
def round_half_even (q : ℚ) : ℤ :=
  if q - ⌊q⌋ < 1/2 then ⌊q⌋
  else if q - ⌊q⌋ > 1/2 then ⌊q⌋ + 1
  else if ⌊q⌋ % 2 = 0 then ⌊q⌋ else ⌊q⌋ + 1

/-- Python's `round(x, 2)`, idealized over exact rationals. -/
def pyRound2 (q : ℚ) : ℚ := (round_half_even (q * 100) : ℚ) / 100

/-- The helper `DynamicQueueManager._get_priority_reason`.  The final
`if item.get("rl_optimized")` test always fails: the internal item dict
never holds that key (it is added only to the output dicts), so the
"AI optimized" reason is never appended. -/
def get_priority_reason (it : Item) : String :=
  let reasons : List String :=
    (if it.score ≥ 80 then ["High priority"]
     else if it.score ≥ 60 then ["Medium priority"]
     else ["Standard priority"])
    ++ (if it.patient.age ≥ 65 then ["senior citizen"]
        else if it.patient.age ≤ 5 then ["young child"] else [])
    ++ (if it.patient.risk_level = "high" then ["high risk condition"] else [])
    ++ (if has_conditions it.patient.conditions then ["chronic condition"] else [])
  pyCapitalize (String.intercalate " - " reasons)

/-- A queue item dict of the API response.  `appointment_duration` and
`is_emergency` are `Option` because the emergency item built by
`reorder_queue_for_emergency` omits those two keys. -/
structure Ticket where
  id : Nat
  name : String
  age : Int
  conditions : Option String
  risk_level : String
  score : ℚ
  queue_position : Nat
  estimated_wait_minutes : Nat
  appointment_duration : Option Nat
  appointment_type : String
  is_emergency : Option Bool
  status : String
  priority_reason : String
  rl_optimized : Bool
deriving Repr, DecidableEq

/-- The position-1 ticket built for `first_appointment_item`
(queue_manager.py lines 185-217); `scoredLen` is `len(scored_patients)`. -/
def first_ticket (fi : Item) (scoredLen : Nat) : Ticket :=
  let d := appointment_durations fi.appointment_type
  let is_only_patient := scoredLen + 1 = 1
  { id := fi.patient.id
    name := fi.patient.name
    age := fi.patient.age
    conditions := fi.patient.conditions
    risk_level := fi.patient.risk_level
    score := pyRound2 fi.score
    queue_position := 1
    estimated_wait_minutes := if is_only_patient then 0 else d
    appointment_duration := some d
    appointment_type := fi.appointment_type
    is_emergency := some fi.is_emergency
    status := "waiting"
    priority_reason := "First appointment - no reordering"
    rl_optimized := false }

/-- An output ticket of the position loop (queue_manager.py lines 248-263). -/
def mk_ticket (it : Item) (pos w d : Nat) : Ticket :=
  { id := it.patient.id
    name := it.patient.name
    age := it.patient.age
    conditions := it.patient.conditions
    risk_level := it.patient.risk_level
    score := pyRound2 it.score
    queue_position := pos
    estimated_wait_minutes := w
    appointment_duration := some d
    appointment_type := it.appointment_type
    is_emergency := some it.is_emergency
    status := "waiting"
    priority_reason := get_priority_reason it
    rl_optimized := it.rl_recommendation.isSome }

/-- The position/wait loop over the sorted items (queue_manager.py lines
223-263): `total` is `total_patients`, `pos` the position of the next item,
`cum` the running `cumulative_wait_time`.  The last position is zeroed, a
first position seeds the running total with its own duration, everything
else reads the running total and then adds its own duration to it. -/
def build_tickets (total : Nat) : Nat → Nat → List Item → List Ticket
  | _, _, [] => []
  | pos, cum, it :: rest =>
    let d := appointment_durations it.appointment_type
    let wc :=
      if pos = total then (0, cum)
      else if pos = 1 then (d, d)
      else (cum, cum + d)
    mk_ticket it pos wc.1 d :: build_tickets total (pos + 1) wc.2 rest

/-- The method `DynamicQueueManager.calculate_queue_order`, also returning the warnings
logged by the RL loop.  The surrounding `try/except` only guards against
exceptions, which the embedding's total functions cannot raise, so the
`return []` fallback is unreachable here. -/
def calculate_queue_order_log (oracle : Oracle) (db : Db)
    (queue : List QueueEntry) : List Ticket × List String :=
  let pre := pre_rl_items db queue
  let rl := apply_rl oracle pre.2
  let sorted := sort_scored rl.1
  match pre.1 with
  | some f =>
    let hd := first_ticket f sorted.length
    let cum0 := if sorted.length + 1 = 1 then 0
                else appointment_durations f.appointment_type
    (hd :: build_tickets (sorted.length + 1) 2 cum0 sorted, rl.2)
  | none => (build_tickets sorted.length 1 0 sorted, rl.2)

/-- The method `DynamicQueueManager.calculate_queue_order` (result list only). -/
def calculate_queue_order (oracle : Oracle) (db : Db)
    (queue : List QueueEntry) : List Ticket :=
  (calculate_queue_order_log oracle db queue).1

/-- The ids of the candidates for which the RL loop actually calls the
service: the first (up to) ten entries of the not-yet-sorted
`scored_patients` list. -/
def rl_consulted_ids (db : Db) (queue : List QueueEntry) : List Nat :=
  (((pre_rl_items db queue).2).take 10).map (fun it => it.patient.id)

/-! ### DynamicQueueManager.reorder_queue_for_emergency (lines 271-317) -/

/-- The method `reorder_queue_for_emergency`, also returning the logged warnings.
`calculate_queue_order(session)` is called without the queue argument
(modelled by `[]`); `session.get(Patient, id)` is the primary-key lookup,
modelled as the first list entry with that id.  The missing-patient branch
returns the freshly computed queue as is and logs nothing.  As in
`calculate_queue_order`, the `except` fallback is unreachable for total
functions. -/
def reorder_queue_for_emergency_log (oracle : Oracle) (db : Db)
    (emergency_patient_id : Nat) : List Ticket × List String :=
  let current := calculate_queue_order_log oracle db []
  match db.patients.find? (fun p => p.id == emergency_patient_id) with
  | none => current
  | some p =>
    let emergency_score := calculate_patient_score p "emergency" true
    let emergency_item : Ticket :=
      { id := p.id
        name := p.name
        age := p.age
        conditions := p.conditions
        risk_level := "high"
        score := emergency_score
        queue_position := 1
        estimated_wait_minutes := 0
        appointment_duration := none
        appointment_type := "emergency"
        is_emergency := none
        status := "emergency"
        priority_reason := "Emergency case - immediate attention required"
        rl_optimized := false }
    (emergency_item ::
       (current.1.filter (fun t => decide (t.id ≠ emergency_patient_id))).map
         (fun t => { t with queue_position := t.queue_position + 1,
                            estimated_wait_minutes := t.estimated_wait_minutes + 15 }),
     current.2)

/-- The method `DynamicQueueManager.reorder_queue_for_emergency` (result list only). -/
def reorder_queue_for_emergency (oracle : Oracle) (db : Db)
    (emergency_patient_id : Nat) : List Ticket :=
  (reorder_queue_for_emergency_log oracle db emergency_patient_id).1

/-! ### main.py queue state and the /next_patient endpoint (lines 642-735) -/

/-- An element of the global `completed_patients` list: on the RL path a
copy of the selected queue-item dict, on the FIFO fallback a copy of the raw
queue entry, each extended with `completed_at` and `completion_order`. -/
inductive CompletedRecord where
  | fromTicket (t : Ticket) (completed_at : String) (completion_order : Nat)
  | fromEntry (e : QueueEntry) (completed_at : String) (completion_order : Nat)
deriving Repr, DecidableEq

/-- The module-level mutable state of main.py: the database plus the
`appointment_queue` and `completed_patients` globals. -/
structure ServerState where
  db : Db
  appointment_queue : List QueueEntry
  completed_patients : List CompletedRecord
deriving Repr, DecidableEq

/-- An `HTTPException` raised by the endpoint. -/
structure HttpError where
  status_code : Nat
  detail : String
deriving Repr, DecidableEq

/-- The `assigned_patient` of the response: the head ticket of the optimized
queue, or a raw entry on the FIFO fallback. -/
inductive Assigned where
  | ticket (t : Ticket)
  | entry (e : QueueEntry)
deriving Repr, DecidableEq

/-- The response body of `/next_patient`. -/
structure AssignResult where
  assigned_patient : Assigned
  rl_decision : Bool
  selection_reason : String
  remaining_queue_size : Nat
deriving Repr, DecidableEq

/-- The `/next_patient` endpoint, `get_next_patient_rl`: raises 400 on an
empty queue; otherwise takes the head of the RL-optimized queue, appends a
completed record and removes every raw entry whose `patient_id` equals the
selected ticket's id; if the optimized queue came back empty it falls back
to a FIFO `pop(0)`.  `now` is `datetime.now().isoformat()`.  The
priority-based except-branch runs only when an exception escapes the inner
block, which cannot happen for the embedding's total functions; the outer
catch-all (which would re-wrap any raise, the 400 included, in a fresh 400)
is likewise elided, keeping the original status and detail. -/
def get_next_patient_rl (oracle : Oracle) (now : String) (s : ServerState) :
    Except HttpError (AssignResult × ServerState) :=
  match s.appointment_queue with
  | [] => .error { status_code := 400, detail := "Queue is empty" }
  | q0 :: restQ =>
    match calculate_queue_order oracle s.db (q0 :: restQ) with
    | selected :: _ =>
      let completed := s.completed_patients ++
        [CompletedRecord.fromTicket selected now (s.completed_patients.length + 1)]
      let queue := (q0 :: restQ).filter (fun p => decide (p.patient_id ≠ selected.id))
      .ok ({ assigned_patient := .ticket selected
             rl_decision := true
             selection_reason := "RL model optimization"
             remaining_queue_size := queue.length },
           { s with appointment_queue := queue, completed_patients := completed })
    | [] =>
      let completed := s.completed_patients ++
        [CompletedRecord.fromEntry q0 now (s.completed_patients.length + 1)]
      .ok ({ assigned_patient := .entry q0
             rl_decision := false
             selection_reason := "FIFO fallback"
             remaining_queue_size := restQ.length },
           { s with appointment_queue := restQ, completed_patients := completed })

/-! ### main.py /queue/current wait computation (lines 745-791) -/

/-- An entry of the `enhanced_queue` of `/queue/current` (the fields derived
by the wait loop; `in_queue_for` needs the wall clock and is omitted). -/
structure EnhancedEntry where
  entry : QueueEntry
  current_position : Nat
  estimated_wait : Nat
  appointment_duration : Nat
deriving Repr, DecidableEq

/-- The wait loop of `get_current_queue`: index 0 gets wait 0 and seeds the
running total with its own duration; index 1 and the general branch are
written separately in the source but do the same thing (read the total,
then add their own duration to it). -/
def enhance_queue : Nat → Nat → List QueueEntry → List EnhancedEntry
  | _, _, [] => []
  | i, cum, e :: rest =>
    let d := appointment_durations e.appointment_type
    let wc :=
      if i = 0 then (0, d)
      else if i = 1 then (cum, cum + d)
      else (cum, cum + d)
    { entry := e, current_position := i + 1, estimated_wait := wc.1,
      appointment_duration := d } :: enhance_queue (i + 1) wc.2 rest

/-- The enhanced queue returned by `/queue/current`. -/
def get_current_queue (q : List QueueEntry) : List EnhancedEntry :=
  enhance_queue 0 0 q

/-! ### Concrete states used by witnesses and counterexamples -/

/-- An oracle whose every call fails (an exception or a `None` reply). -/
def oracleFail : Oracle := fun _ _ _ => none

/-- An oracle that always answers with a reply carrying no urgency boost. -/
def oracleCalm : Oracle := fun _ _ _ => some none

/-- A low-risk patient with no recorded conditions and an unremarkable
no-show probability. -/
def plainPatient (i : Nat) (a : Int) : Patient :=
  { id := i, name := "patient" ++ toString i, age := a, conditions := none,
    risk_level := "low", no_show_probability := 15/100 }

/-- A routine consultation booking for patient `i`. -/
def plainEntry (i : Nat) (ts : String) : QueueEntry :=
  { patient_id := i, appointment_type := "consultation", is_emergency := false,
    queue_timestamp := ts }

/-- Two waiting patients, no appointments: patient 2 (age 70) outscores
patient 1 (age 30). -/
def dbTwoWaiting : Db :=
  { patients := [plainPatient 1 30, plainPatient 2 70], appointments := [] }

/-- Patient 1 has a scheduled appointment (so is filtered out of the waiting
set), patient 2 does not. -/
def dbScheduledHead : Db :=
  { patients := [plainPatient 1 30, plainPatient 2 30],
    appointments :=
      [{ patient_id := 1, appointment_type := "consultation", status := "scheduled" }] }

/-- A server state whose raw queue holds two bookings for the same patient. -/
def stateDup : ServerState :=
  { db := { patients := [plainPatient 1 30], appointments := [] },
    appointment_queue :=
      [plainEntry 1 "2025-01-01T08:00:00", plainEntry 1 "2025-01-01T08:30:00"],
    completed_patients := [] }

/-- A server state with an empty raw queue. -/
def stateEmptyQueue : ServerState :=
  { db := dbTwoWaiting, appointment_queue := [], completed_patients := [] }

/-- Three equal-score waiting patients; the raw queue pins patient 10 and
books patient 11 later than patient 12. -/
def dbTie : Db :=
  { patients := [plainPatient 10 30, plainPatient 11 30, plainPatient 12 30],
    appointments := [] }

/-- The raw queue for `dbTie`: patient 10 first, then patient 11 booked on
Jan 3, patient 12 booked on Jan 2. -/
def qTie : List QueueEntry :=
  [plainEntry 10 "2024-01-01T08:00:00", plainEntry 11 "2024-01-03T08:00:00",
   plainEntry 12 "2024-01-02T08:00:00"]

/-- Eleven waiting patients in database order; the eleventh (age 70) has the
strictly highest base score, the first ten all score lower. -/
def dbEleven : Db :=
  { patients := (List.range 10).map (fun i => plainPatient (i + 1) 30)
      ++ [plainPatient 11 70],
    appointments := [] }

/-! ## Theorems

First the helper lemmas shared between claims, then one theorem (plus
witness or counterexample) per claim.  The rational operations of
Batteries are `@[irreducible]` by default, which blocks `decide` on the
concrete states; they are made semireducible locally so concrete snapshots
evaluate. -/

section Theorems

attribute [local semireducible] Rat.add Rat.mul Rat.inv Rat.sub

theorem risk_scores_bounds (r : String) : 10 ≤ risk_scores r ∧ risk_scores r ≤ 30 := by
  unfold risk_scores; split_ifs <;> norm_num

theorem age_score_bounds (a : Int) : 0 ≤ age_score a ∧ age_score a ≤ 20 := by
  unfold age_score; split_ifs <;> norm_num

theorem condition_score_bounds (c : Option String) :
    0 ≤ condition_score c ∧ condition_score c ≤ 25 := by
  cases c with
  | none => simp [condition_score]
  | some s => simp only [condition_score]; split_ifs <;> norm_num

theorem type_scores_bounds (t : String) : 3 ≤ type_scores t ∧ type_scores t ≤ 15 := by
  unfold type_scores; split_ifs <;> norm_num

theorem no_show_score_bounds (p : ℚ) : -10 ≤ no_show_score p ∧ no_show_score p ≤ 5 := by
  unfold no_show_score; split_ifs <;> norm_num

/-- C6: for every patient and appointment type the scorer stays in [1,100];
an emergency short-circuits to exactly 100; otherwise the result is the sum
of the risk weight, the age bonus, the condition bonus, the type weight and
the no-show adjustment, clamped below at 1 (determinism is immediate: the
embedding is a pure function of its arguments, as is the Python original,
which touches no state). -/
theorem calculate_patient_score_spec (p : Patient) (t : String) (em : Bool) :
    1 ≤ calculate_patient_score p t em ∧
    calculate_patient_score p t em ≤ 100 ∧
    (em = true → calculate_patient_score p t em = 100) ∧
    (em = false → calculate_patient_score p t em =
      max (risk_scores (pyLower p.risk_level) + age_score p.age
        + condition_score p.conditions + type_scores (pyLower t)
        + no_show_score p.no_show_probability) 1) := by
  cases em with
  | true =>
    have h100 : calculate_patient_score p t true = 100 := rfl
    refine ⟨?_, le_of_eq h100, fun _ => h100, ?_⟩
    · rw [h100]; norm_num
    · intro h; exact absurd h (by simp)
  | false =>
    have h1 := risk_scores_bounds (pyLower p.risk_level)
    have h2 := age_score_bounds p.age
    have h3 := condition_score_bounds p.conditions
    have h4 := type_scores_bounds (pyLower t)
    have h5 := no_show_score_bounds p.no_show_probability
    have hval : calculate_patient_score p t false =
        max (risk_scores (pyLower p.risk_level) + age_score p.age
          + condition_score p.conditions + type_scores (pyLower t)
          + no_show_score p.no_show_probability) 1 := rfl
    refine ⟨?_, ?_, ?_, fun _ => hval⟩
    · rw [hval]; exact le_max_right _ _
    · rw [hval]
      apply max_le _ (by norm_num)
      linarith [h1.2, h2.2, h3.2, h4.2, h5.2]
    · intro h; exact absurd h (by simp)

/-- C6 witness: the scorer evaluated at a concrete patient, through the
theorem. -/
theorem calculate_patient_score_spec_witness :
    calculate_patient_score (plainPatient 1 30) "consultation" true = 100 ∧
    calculate_patient_score (plainPatient 1 30) "consultation" false = 15 :=
  ⟨(calculate_patient_score_spec (plainPatient 1 30) "consultation" true).2.2.1 rfl,
   ((calculate_patient_score_spec (plainPatient 1 30) "consultation" false).2.2.2
      rfl).trans (by decide)⟩

/-- C7 counterexample: with an empty raw queue, `/next_patient` does not
return an empty-result value — it raises (the endpoint's
`HTTPException(400)`), so the call is not `ok`. -/
theorem next_patient_empty_queue_cex :
    (get_next_patient_rl oracleFail "2025-01-01T09:00:00" stateEmptyQueue).isOk = false :=
  rfl

/-- C7 amended: calling `/next_patient` with an empty raw queue raises an
`HTTPException` with status 400 and detail "Queue is empty" (re-wrapped by
the endpoint's catch-all in the original), rather than returning an
empty-result value. -/
theorem next_patient_empty_queue_raises (o : Oracle) (now : String) (s : ServerState)
    (h : s.appointment_queue = []) :
    get_next_patient_rl o now s =
      .error { status_code := 400, detail := "Queue is empty" } := by
  rcases s with ⟨db, q, c⟩
  cases h
  rfl

/-- C7 witness for the amended statement. -/
theorem next_patient_empty_queue_raises_witness :
    get_next_patient_rl oracleCalm "2025-01-01T09:00:00" stateEmptyQueue =
      .error { status_code := 400, detail := "Queue is empty" } :=
  next_patient_empty_queue_raises oracleCalm "2025-01-01T09:00:00" stateEmptyQueue rfl

/-- C8 counterexample: reordering for a patient id absent from the database
returns the freshly computed snapshot unchanged, but logs nothing — the
claimed warning is not observable (here the oracle succeeds for every call,
so the log is exactly empty). -/
theorem reorder_missing_no_warning_cex :
    (reorder_queue_for_emergency_log oracleCalm dbTwoWaiting 99).2 = [] ∧
    (reorder_queue_for_emergency_log oracleCalm dbTwoWaiting 99).1 =
      calculate_queue_order oracleCalm dbTwoWaiting [] :=
  ⟨rfl, rfl⟩

/-- C8 amended: when no database patient has the requested id, the
emergency reorder is a no-op — it returns exactly what a plain snapshot
recomputation returns, logs, and raises nothing beyond it (in particular no
warning about the missing patient). -/
theorem reorder_missing_patient_noop (o : Oracle) (db : Db) (pid : Nat)
    (h : ∀ p ∈ db.patients, p.id ≠ pid) :
    reorder_queue_for_emergency_log o db pid = calculate_queue_order_log o db [] := by
  have hf : db.patients.find? (fun p => p.id == pid) = none :=
    List.find?_eq_none.mpr (fun p hp => by simpa using h p hp)
  simp only [reorder_queue_for_emergency_log, hf]

/-- C8 witness for the amended statement. -/
theorem reorder_missing_patient_noop_witness :
    reorder_queue_for_emergency_log oracleFail dbTwoWaiting 99 =
      calculate_queue_order_log oracleFail dbTwoWaiting [] :=
  reorder_missing_patient_noop oracleFail dbTwoWaiting 99 (by decide)

/-- C3: the code does not implement the canonical wait convention.  With two
waiting consultation patients (25 minutes each) and no pinned head,
`calculate_queue_order` zeroes the LAST ticket's wait (giving waits
`[25, 0]` where the canonical convention demands `[25, 25]`), while
`/queue/current` zeroes the FIRST position (giving `[0, 25]` where the
canonical convention demands `[25, 25]`). -/
theorem wait_time_conventions_diverge :
    (calculate_queue_order oracleFail dbTwoWaiting []).map
        (fun t => (t.queue_position, t.estimated_wait_minutes, t.appointment_duration)) =
      [(1, 25, some 25), (2, 0, some 25)] ∧
    (get_current_queue
        [plainEntry 1 "2025-01-01T08:00:00", plainEntry 2 "2025-01-01T08:05:00"]).map
        (fun e => (e.current_position, e.estimated_wait, e.appointment_duration)) =
      [(1, 0, 25), (2, 25, 25)] :=
  ⟨by decide, by decide⟩

/-- C2 counterexample: a patient who booked twice.  One `/next_patient` call
succeeds, appends one completed record, but removes BOTH raw entries (queue
length 2 → 0), so the queue does not shrink by exactly one. -/
theorem next_patient_removes_two_cex :
    stateDup.appointment_queue.length = 2 ∧
    (get_next_patient_rl oracleFail "2025-01-02T09:00:00" stateDup).toOption.map
        (fun r => (r.2.appointment_queue.length, r.2.completed_patients.length)) =
      some (0, 1) :=
  ⟨rfl, by decide⟩

/-- C2 amended: on a non-empty raw queue `/next_patient` succeeds and
appends exactly one completed record, but on the RL path it removes EVERY
raw entry whose patient id equals the selected ticket's id (exactly one
entry only when that patient has exactly one booking, and possibly zero
when the selected ticket never came from the raw queue); only the FIFO
fallback (empty optimized snapshot) removes exactly the head entry. -/
theorem next_patient_effect (o : Oracle) (now : String) (s : ServerState)
    (h : s.appointment_queue ≠ []) :
    ∃ r s', get_next_patient_rl o now s = .ok (r, s') ∧
      s'.completed_patients.length = s.completed_patients.length + 1 ∧
      ((∃ t ts, calculate_queue_order o s.db s.appointment_queue = t :: ts ∧
          s'.appointment_queue =
            s.appointment_queue.filter (fun e => decide (e.patient_id ≠ t.id))) ∨
       (calculate_queue_order o s.db s.appointment_queue = [] ∧
          s'.appointment_queue = s.appointment_queue.tail)) := by
  rcases s with ⟨db, q, c⟩
  cases q with
  | nil => exact absurd rfl h
  | cons q0 restQ =>
    cases hc : calculate_queue_order o db (q0 :: restQ) with
    | cons t ts =>
      refine ⟨{ assigned_patient := .ticket t, rl_decision := true,
                selection_reason := "RL model optimization",
                remaining_queue_size :=
                  ((q0 :: restQ).filter (fun p => decide (p.patient_id ≠ t.id))).length },
              { db := db,
                appointment_queue :=
                  (q0 :: restQ).filter (fun p => decide (p.patient_id ≠ t.id)),
                completed_patients :=
                  c ++ [CompletedRecord.fromTicket t now (c.length + 1)] },
              ?_, by simp, .inl ⟨t, ts, rfl, rfl⟩⟩
      simp only [get_next_patient_rl, hc]
    | nil =>
      refine ⟨{ assigned_patient := .entry q0, rl_decision := false,
                selection_reason := "FIFO fallback",
                remaining_queue_size := restQ.length },
              { db := db, appointment_queue := restQ,
                completed_patients :=
                  c ++ [CompletedRecord.fromEntry q0 now (c.length + 1)] },
              ?_, by simp, .inr ⟨rfl, rfl⟩⟩
      simp only [get_next_patient_rl, hc]

/-- C2 witness for the amended statement. -/
theorem next_patient_effect_witness :
    ∃ r s', get_next_patient_rl oracleFail "2025-01-02T09:00:00" stateDup = .ok (r, s') ∧
      s'.completed_patients.length = stateDup.completed_patients.length + 1 ∧
      ((∃ t ts, calculate_queue_order oracleFail stateDup.db stateDup.appointment_queue
            = t :: ts ∧
          s'.appointment_queue = stateDup.appointment_queue.filter
            (fun e => decide (e.patient_id ≠ t.id))) ∨
       (calculate_queue_order oracleFail stateDup.db stateDup.appointment_queue = [] ∧
          s'.appointment_queue = stateDup.appointment_queue.tail)) :=
  next_patient_effect oracleFail "2025-01-02T09:00:00" stateDup (by decide)

theorem split_items_fst_id (mk : Patient → Item) (hmk : ∀ p, (mk p).patient = p)
    (fid? : Option Nat) :
    ∀ (l : List Patient) (it : Item), (split_items mk fid? l).1 = some it →
      some it.patient.id = fid? := by
  intro l
  induction l with
  | nil => intro it h; simp [split_items] at h
  | cons p rest ih =>
    intro it h
    simp only [split_items] at h
    by_cases hp : some p.id = fid?
    · rw [if_pos hp] at h
      cases hs : (split_items mk fid? rest).1 with
      | some it' =>
        rw [hs] at h
        simp only [Option.getD_some, Option.some.injEq] at h
        exact h ▸ ih it' hs
      | none =>
        rw [hs] at h
        simp only [Option.getD_none, Option.some.injEq] at h
        rw [← h, hmk p]
        exact hp
    · rw [if_neg hp] at h
      exact ih it h

theorem split_items_fst_isSome (mk : Patient → Item) (fid : Nat) :
    ∀ l : List Patient, (∃ p ∈ l, p.id = fid) →
      ∃ it, (split_items mk (some fid) l).1 = some it := by
  intro l
  induction l with
  | nil => rintro ⟨p, hp, _⟩; cases hp
  | cons p rest ih =>
    rintro ⟨p', hp', hid⟩
    simp only [split_items]
    by_cases hp : some p.id = some fid
    · rw [if_pos hp]
      cases hs : (split_items mk (some fid) rest).1 with
      | some it' => exact ⟨it', by simp⟩
      | none => exact ⟨mk p, by simp⟩
    · rw [if_neg hp]
      rcases List.mem_cons.mp hp' with h | h
      · subst h
        exact absurd (by rw [hid]) hp
      · exact ih ⟨p', h, hid⟩

theorem calculate_cons_of_fst_some (o : Oracle) (db : Db) (q : List QueueEntry)
    (f : Item) (hf : (pre_rl_items db q).1 = some f) :
    calculate_queue_order o db q =
      first_ticket f (sort_scored (apply_rl o (pre_rl_items db q).2).1).length ::
        build_tickets ((sort_scored (apply_rl o (pre_rl_items db q).2).1).length + 1) 2
          (if (sort_scored (apply_rl o (pre_rl_items db q).2).1).length + 1 = 1 then 0
           else appointment_durations f.appointment_type)
          (sort_scored (apply_rl o (pre_rl_items db q).2).1) := by
  simp only [calculate_queue_order, calculate_queue_order_log, hf]

theorem calculate_of_fst_none (o : Oracle) (db : Db) (q : List QueueEntry)
    (hf : (pre_rl_items db q).1 = none) :
    calculate_queue_order o db q =
      build_tickets (sort_scored (apply_rl o (pre_rl_items db q).2).1).length 1 0
        (sort_scored (apply_rl o (pre_rl_items db q).2).1) := by
  simp only [calculate_queue_order, calculate_queue_order_log, hf]

/-- C1 counterexample: the raw queue's head is patient 1 (earliest booked,
never admitted), but patient 1 has a appointment with status "scheduled" in
the database, so the snapshot drops them entirely and position 1 goes to
patient 2 instead of the queue head. -/
theorem pinned_head_displaced_cex :
    ([plainEntry 1 "2025-01-01T08:00:00"].head?.map (fun q => q.patient_id) = some 1) ∧
    ((calculate_queue_order oracleFail dbScheduledHead
        [plainEntry 1 "2025-01-01T08:00:00"]).map (fun t => (t.id, t.queue_position)) =
      [(2, 1)]) :=
  ⟨rfl, by decide⟩

/-- C1 amended: the raw queue's first entry holds position 1 in every
snapshot PROVIDED its patient is among the waiting patients (present in the
database with no "scheduled" appointment); score recomputation never
displaces it because the snapshot is a pure function of the state and the
pinned branch ignores scores entirely.  When the head's patient is not a
waiting patient the pin silently fails and position 1 goes to the best
scorer instead. -/
theorem pinned_head_of_waiting (o : Oracle) (db : Db) (e : QueueEntry)
    (restQ : List QueueEntry)
    (h : ∃ p ∈ waiting_patients db.patients db.appointments, p.id = e.patient_id) :
    ∃ t ts, calculate_queue_order o db (e :: restQ) = t :: ts ∧
      t.id = e.patient_id ∧ t.queue_position = 1 := by
  have hmk : ∀ p, (mk_item db.appointments (e :: restQ) p).patient = p := fun _ => rfl
  obtain ⟨f, hf⟩ :=
    split_items_fst_isSome (mk_item db.appointments (e :: restQ)) e.patient_id
      (waiting_patients db.patients db.appointments) h
  have hfe : (pre_rl_items db (e :: restQ)).1 = some f := hf
  have hid : some f.patient.id = some e.patient_id :=
    split_items_fst_id _ hmk _ _ f hf
  rw [calculate_cons_of_fst_some o db (e :: restQ) f hfe]
  exact ⟨_, _, rfl, Option.some.inj hid, rfl⟩

/-- C1 witness for the amended statement. -/
theorem pinned_head_of_waiting_witness :
    ∃ t ts, calculate_queue_order oracleFail dbTwoWaiting
        (plainEntry 1 "2025-01-01T08:00:00" :: []) = t :: ts ∧
      t.id = 1 ∧ t.queue_position = 1 :=
  pinned_head_of_waiting oracleFail dbTwoWaiting (plainEntry 1 "2025-01-01T08:00:00") []
    (by decide)

theorem find?_of_mem_id {pid : Nat} :
    ∀ {l : List Patient}, (∃ p ∈ l, p.id = pid) →
      ∃ p, l.find? (fun x => x.id == pid) = some p ∧ p.id = pid := by
  intro l h
  have hsome : (l.find? (fun x => x.id == pid)).isSome := by
    apply List.find?_isSome.mpr
    obtain ⟨p, hp, hid⟩ := h
    exact ⟨p, hp, by simpa using hid⟩
  obtain ⟨p, hp⟩ := Option.isSome_iff_exists.mp hsome
  exact ⟨p, hp, by simpa using List.find?_some hp⟩

/-- C5: for every patient id present in the database, the emergency reorder
returns the synthesized emergency ticket first — score exactly 100 (the
scorer short-circuit), position 1, zero estimated wait, status "emergency" —
and the rest is the freshly computed input ordering minus any ticket of that
patient, each remaining ticket keeping all its fields except that its
position grows by exactly 1 and its estimated wait by exactly 15 minutes. -/
theorem reorder_for_emergency_spec (o : Oracle) (db : Db) (pid : Nat)
    (h : ∃ p ∈ db.patients, p.id = pid) :
    ∃ t rest, reorder_queue_for_emergency o db pid = t :: rest ∧
      t.id = pid ∧ t.score = 100 ∧ t.queue_position = 1 ∧
      t.estimated_wait_minutes = 0 ∧ t.status = "emergency" ∧
      rest = ((calculate_queue_order o db []).filter
          (fun u => decide (u.id ≠ pid))).map
        (fun u => { u with queue_position := u.queue_position + 1,
                           estimated_wait_minutes := u.estimated_wait_minutes + 15 }) := by
  obtain ⟨p, hp, hpid⟩ := find?_of_mem_id h
  refine ⟨{ id := p.id, name := p.name, age := p.age, conditions := p.conditions,
            risk_level := "high", score := calculate_patient_score p "emergency" true,
            queue_position := 1, estimated_wait_minutes := 0,
            appointment_duration := none, appointment_type := "emergency",
            is_emergency := none, status := "emergency",
            priority_reason := "Emergency case - immediate attention required",
            rl_optimized := false },
          _, ?_, hpid, rfl, rfl, rfl, rfl, rfl⟩
  simp only [reorder_queue_for_emergency, reorder_queue_for_emergency_log, hp,
    calculate_queue_order]

/-- C5 witness. -/
theorem reorder_for_emergency_spec_witness :
    ∃ t rest, reorder_queue_for_emergency oracleFail dbTwoWaiting 2 = t :: rest ∧
      t.id = 2 ∧ t.score = 100 ∧ t.queue_position = 1 ∧
      t.estimated_wait_minutes = 0 ∧ t.status = "emergency" ∧
      rest = ((calculate_queue_order oracleFail dbTwoWaiting []).filter
          (fun u => decide (u.id ≠ 2))).map
        (fun u => { u with queue_position := u.queue_position + 1,
                           estimated_wait_minutes := u.estimated_wait_minutes + 15 }) :=
  reorder_for_emergency_spec oracleFail dbTwoWaiting 2 (by decide)

/-- C9 counterexample: eleven waiting patients in database order, the
eleventh with the strictly highest base score (35 against 15 for the first
ten).  The RL loop consults the service for the first ten candidates in
iteration order — the top scorer, patient 11, is not consulted, so the
consulted set is not "the top K=10 candidates ranked by current score". -/
theorem rl_consults_initial_ten_cex :
    rl_consulted_ids dbEleven [] = [1, 2, 3, 4, 5, 6, 7, 8, 9, 10] ∧
    ((pre_rl_items dbEleven []).2).map (fun it => (it.patient.id, it.score)) =
      [(1, 15), (2, 15), (3, 15), (4, 15), (5, 15), (6, 15), (7, 15), (8, 15),
       (9, 15), (10, 15), (11, 35)] ∧
    (15 : ℚ) < 35 :=
  ⟨by decide, by decide, by norm_num⟩

/-- C9 amended: on every read the oracle is consulted for at most the FIRST
K=10 candidates of the not-yet-sorted scored list (patient iteration order),
not the top ten by score; candidates past the tenth are returned untouched;
a consulted candidate keeps its fields except that a returned truthy urgency
boost is added to its score, while a failed call or a reply without a boost
leaves the score unchanged. -/
theorem rl_pass_spec (o : Oracle) (db : Db) (q : List QueueEntry) (l : List Item) :
    (rl_consulted_ids db q).length ≤ 10 ∧
    ((apply_rl o l).1).take 10 = (l.take 10).map (fun it => (apply_rl_one o it).1) ∧
    ((apply_rl o l).1).drop 10 = l.drop 10 ∧
    (∀ it : Item, (apply_rl_one o it).1.patient = it.patient) ∧
    (∀ it : Item, (apply_rl_one o it).1.score = it.score +
      (match o it.patient.id it.appointment_type it.patient.risk_level with
       | some (some b) => b
       | some none => 0
       | none => 0)) := by
  refine ⟨?_, ?_, ?_, ?_, ?_⟩
  · simp only [rl_consulted_ids, List.length_map, List.length_take]
    omega
  · have hrl : (apply_rl o l).1 =
        (l.take 10).map (fun it => (apply_rl_one o it).1) ++ l.drop 10 := by
      simp only [apply_rl, List.map_map]
      rfl
    rw [hrl]
    rcases le_total l.length 10 with h | h
    · rw [List.drop_eq_nil_of_le h, List.append_nil]
      exact List.take_of_length_le (by simp only [List.length_map, List.length_take]; omega)
    · exact List.take_left' (by simp only [List.length_map, List.length_take]; omega)
  · have hrl : (apply_rl o l).1 =
        (l.take 10).map (fun it => (apply_rl_one o it).1) ++ l.drop 10 := by
      simp only [apply_rl, List.map_map]
      rfl
    rw [hrl]
    rcases le_total l.length 10 with h | h
    · rw [List.drop_eq_nil_of_le h, List.append_nil, List.drop_eq_nil_of_le]
      simp only [List.length_map, List.length_take]
      omega
    · exact List.drop_left' (by simp only [List.length_map, List.length_take]; omega)
  · intro it
    unfold apply_rl_one
    cases o it.patient.id it.appointment_type it.patient.risk_level with
    | none => rfl
    | some r =>
      dsimp only
      split <;> rfl
  · intro it
    unfold apply_rl_one
    cases ho : o it.patient.id it.appointment_type it.patient.risk_level with
    | none => dsimp only; rw [add_zero]
    | some r =>
      cases r with
      | none => dsimp only [truthy_boost]; rw [if_neg (by simp), add_zero]
      | some b =>
        dsimp only [truthy_boost]
        by_cases hb : b = 0
        · subst hb
          rw [if_neg (by simp), add_zero]
        · rw [if_pos (by simpa using hb)]
          simp

theorem mem_insert_desc {x a : Item} :
    ∀ {l : List Item}, x ∈ insert_desc a l ↔ x = a ∨ x ∈ l := by
  intro l
  induction l with
  | nil => simp [insert_desc]
  | cons b bs ih =>
    simp only [insert_desc]
    split_ifs with hle
    · simp [List.mem_cons]
    · simp only [List.mem_cons, ih]
      tauto

theorem insert_desc_perm (a : Item) : ∀ (l : List Item), (insert_desc a l).Perm (a :: l) := by
  intro l
  induction l with
  | nil => simp [insert_desc]
  | cons b bs ih =>
    simp only [insert_desc]
    split_ifs with hle
    · exact List.Perm.refl _
    · exact (List.Perm.cons b ih).trans (List.Perm.swap a b bs)

theorem sort_scored_perm : ∀ (l : List Item), (sort_scored l).Perm l := by
  intro l
  induction l with
  | nil => simp [sort_scored]
  | cons a as ih =>
    simp only [sort_scored]
    exact (insert_desc_perm a (sort_scored as)).trans (ih.cons a)

theorem pairwise_insert_desc {a : Item} :
    ∀ {l : List Item}, List.Pairwise (fun x y : Item => y.score ≤ x.score) l →
      List.Pairwise (fun x y : Item => y.score ≤ x.score) (insert_desc a l) := by
  intro l
  induction l with
  | nil => intro _; simp [insert_desc]
  | cons b bs ih =>
    intro h
    rw [List.pairwise_cons] at h
    obtain ⟨hb, hbs⟩ := h
    simp only [insert_desc]
    split_ifs with hle
    · refine List.Pairwise.cons ?_ (List.Pairwise.cons hb hbs)
      intro x hx
      rcases List.mem_cons.mp hx with rfl | hx
      · exact hle
      · exact le_trans (hb x hx) hle
    · refine List.Pairwise.cons ?_ (ih hbs)
      intro x hx
      rcases mem_insert_desc.mp hx with rfl | hx
      · exact le_of_lt (lt_of_not_le hle)
      · exact hb x hx

theorem sort_scored_pairwise : ∀ (l : List Item),
    List.Pairwise (fun x y : Item => y.score ≤ x.score) (sort_scored l) := by
  intro l
  induction l with
  | nil => simp [sort_scored]
  | cons a as ih =>
    simp only [sort_scored]
    exact pairwise_insert_desc ih

theorem sublist_insert_desc (a : Item) : ∀ (l : List Item), List.Sublist l (insert_desc a l) := by
  intro l
  induction l with
  | nil => simp [insert_desc]
  | cons b bs ih =>
    simp only [insert_desc]
    split_ifs with hle
    · exact List.sublist_cons_self a (b :: bs)
    · exact List.Sublist.cons₂ b ih

theorem cons_sublist_insert_desc {x : Item} :
    ∀ {s c : List Item}, List.Sublist c s → (∀ y ∈ c, y.score ≤ x.score) →
      List.Sublist (x :: c) (insert_desc x s) := by
  intro s
  induction s with
  | nil =>
    intro c hc _
    rw [List.sublist_nil.mp hc]
    simp [insert_desc]
  | cons b bs ih =>
    intro c hc hall
    simp only [insert_desc]
    split_ifs with hle
    · exact List.Sublist.cons₂ x hc
    · cases hc with
      | cons a h => exact List.Sublist.cons b (ih h hall)
      | cons₂ a h => exact absurd (hall b (List.mem_cons_self b _)) hle

theorem pairwise_sublist_sort_scored :
    ∀ {l c : List Item}, List.Pairwise (fun x y : Item => y.score ≤ x.score) c →
      List.Sublist c l → List.Sublist c (sort_scored l) := by
  intro l
  induction l with
  | nil =>
    intro c _ hc
    simpa [sort_scored] using hc
  | cons x xs ih =>
    intro c hp hc
    simp only [sort_scored]
    cases hc with
    | cons a h => exact (ih hp h).trans (sublist_insert_desc x (sort_scored xs))
    | cons₂ a h =>
      rw [List.pairwise_cons] at hp
      exact cons_sublist_insert_desc (ih hp.2 h) (fun y hy => hp.1 y hy)

theorem build_tickets_map_score (total : Nat) :
    ∀ (pos cum : Nat) (l : List Item),
      (build_tickets total pos cum l).map (fun t => t.score) =
        l.map (fun it => pyRound2 it.score) := by
  intro pos cum l
  induction l generalizing pos cum with
  | nil => rfl
  | cons it rest ih =>
    simp only [build_tickets, List.map_cons]
    rw [ih]
    rfl

theorem build_tickets_map_id (total : Nat) :
    ∀ (pos cum : Nat) (l : List Item),
      (build_tickets total pos cum l).map (fun t => t.id) =
        l.map (fun it => it.patient.id) := by
  intro pos cum l
  induction l generalizing pos cum with
  | nil => rfl
  | cons it rest ih =>
    simp only [build_tickets, List.map_cons]
    rw [ih]
    rfl

theorem floor_le_round_half_even (q : ℚ) : ⌊q⌋ ≤ round_half_even q := by
  unfold round_half_even
  split_ifs <;> omega

theorem round_half_even_le_floor_add_one (q : ℚ) : round_half_even q ≤ ⌊q⌋ + 1 := by
  unfold round_half_even
  split_ifs <;> omega

theorem round_half_even_mono {q r : ℚ} (h : q ≤ r) :
    round_half_even q ≤ round_half_even r := by
  rcases lt_or_eq_of_le (Int.floor_mono h) with hf | hf
  · calc round_half_even q ≤ ⌊q⌋ + 1 := round_half_even_le_floor_add_one q
      _ ≤ ⌊r⌋ := by omega
      _ ≤ round_half_even r := floor_le_round_half_even r
  · unfold round_half_even
    rw [← hf]
    split_ifs <;> first | omega | linarith

theorem pyRound2_mono {q r : ℚ} (h : q ≤ r) : pyRound2 q ≤ pyRound2 r := by
  unfold pyRound2
  have h1 : q * 100 ≤ r * 100 := by linarith
  have h2 := round_half_even_mono h1
  have h3 : ((round_half_even (q * 100) : ℤ) : ℚ) ≤ ((round_half_even (r * 100) : ℤ) : ℚ) := by
    exact_mod_cast h2
  linarith

/-- C4 counterexample: three equal-score patients; patient 10 is the pinned
head, patients 11 and 12 tie at score 15 but sit at positions 2 and 3 in
database order even though patient 12 (position 3) booked strictly earlier
than patient 11 (position 2) — ties are NOT broken by ascending booking
timestamp. -/
theorem tie_break_not_by_timestamp_cex :
    ((calculate_queue_order oracleFail dbTie qTie).map
        (fun t => (t.id, t.queue_position, t.score)) =
      [(10, 1, 15), (11, 2, 15), (12, 3, 15)]) ∧
    ((qTie.find? (fun q => q.patient_id == 11)).map (fun q => q.queue_timestamp) =
      some "2024-01-03T08:00:00") ∧
    ((qTie.find? (fun q => q.patient_id == 12)).map (fun q => q.queue_timestamp) =
      some "2024-01-02T08:00:00") ∧
    ("2024-01-02T08:00:00".data < "2024-01-03T08:00:00".data) :=
  ⟨by decide, by decide, by decide, by decide⟩

/-- C4 amended: in every snapshot the non-pinned region is weakly descending
in the (rounded, possibly boosted) score, and equal-score tickets keep the
original relative order of the scored-items list (patient iteration order) —
the stable-sort guarantee — which, as the counterexample shows, need not be
ascending booking-timestamp order. -/
theorem queue_order_sorted_stable (o : Oracle) (db : Db) (q : List QueueEntry) :
    List.Pairwise (fun a b : Ticket => b.score ≤ a.score)
      ((calculate_queue_order o db q).drop
        (if (pre_rl_items db q).1.isSome then 1 else 0)) ∧
    (∀ a b : Item,
      List.Sublist [a, b] (apply_rl o (pre_rl_items db q).2).1 → b.score ≤ a.score →
      List.Sublist [a.patient.id, b.patient.id]
        (((calculate_queue_order o db q).drop
            (if (pre_rl_items db q).1.isSome then 1 else 0)).map (fun t => t.id))) := by
  obtain ⟨T, P, C, hregion⟩ : ∃ T P C,
      (calculate_queue_order o db q).drop
          (if (pre_rl_items db q).1.isSome then 1 else 0) =
        build_tickets T P C (sort_scored (apply_rl o (pre_rl_items db q).2).1) := by
    cases hf : (pre_rl_items db q).1 with
    | none =>
      refine ⟨(sort_scored (apply_rl o (pre_rl_items db q).2).1).length, 1, 0, ?_⟩
      rw [calculate_of_fst_none o db q hf]
      rfl
    | some f =>
      refine ⟨(sort_scored (apply_rl o (pre_rl_items db q).2).1).length + 1, 2,
        (if (sort_scored (apply_rl o (pre_rl_items db q).2).1).length + 1 = 1 then 0
         else appointment_durations f.appointment_type), ?_⟩
      rw [calculate_cons_of_fst_some o db q f hf]
      rfl
  constructor
  · rw [hregion]
    have hpair : List.Pairwise (fun x y : ℚ => y ≤ x)
        ((sort_scored (apply_rl o (pre_rl_items db q).2).1).map
          (fun it => pyRound2 it.score)) := by
      rw [List.pairwise_map]
      exact (sort_scored_pairwise _).imp (fun hab => pyRound2_mono hab)
    have hmap := build_tickets_map_score T P C
      (sort_scored (apply_rl o (pre_rl_items db q).2).1)
    rw [← hmap] at hpair
    exact List.pairwise_map.mp hpair
  · intro a b hab hscore
    have hsl : List.Sublist [a, b]
        (sort_scored (apply_rl o (pre_rl_items db q).2).1) :=
      pairwise_sublist_sort_scored (List.pairwise_pair.mpr hscore) hab
    have hids := hsl.map (fun it => it.patient.id)
    rw [hregion, build_tickets_map_id]
    exact hids

/-- C4 witness for the amended statement: in the tie counterexample state,
the stability clause places patient 11's ticket before patient 12's. -/
theorem queue_order_sorted_stable_witness :
    List.Sublist [11, 12]
      (((calculate_queue_order oracleFail dbTie qTie).drop
          (if (pre_rl_items dbTie qTie).1.isSome then 1 else 0)).map (fun t => t.id)) :=
  (queue_order_sorted_stable oracleFail dbTie qTie).2
    (mk_item dbTie.appointments qTie (plainPatient 11 30))
    (mk_item dbTie.appointments qTie (plainPatient 12 30))
    (by decide) (by decide)

theorem apply_rl_one_patient (o : Oracle) (it : Item) :
    (apply_rl_one o it).1.patient = it.patient := by
  unfold apply_rl_one
  cases o it.patient.id it.appointment_type it.patient.risk_level with
  | none => rfl
  | some r =>
    dsimp only
    split <;> rfl

theorem apply_rl_map_patient (o : Oracle) (l : List Item) :
    ((apply_rl o l).1).map (fun it => it.patient) = l.map (fun it => it.patient) := by
  have hrl : (apply_rl o l).1 =
      (l.take 10).map (fun it => (apply_rl_one o it).1) ++ l.drop 10 := by
    simp only [apply_rl, List.map_map]
    rfl
  rw [hrl, List.map_append, List.map_map]
  conv_rhs => rw [← List.take_append_drop 10 l, List.map_append]
  congr 1
  apply List.map_congr_left
  intro it _
  simp only [Function.comp_apply]
  exact apply_rl_one_patient o it

theorem exists_mem_cons_prop {α : Type} (a : α) (l : List α) (P : α → Prop) :
    (∃ x ∈ a :: l, P x) ↔ P a ∨ ∃ x ∈ l, P x := by
  constructor
  · rintro ⟨x, hx, hP⟩
    rcases List.mem_cons.mp hx with rfl | hx
    · exact Or.inl hP
    · exact Or.inr ⟨x, hx, hP⟩
  · rintro (h | ⟨x, hx, hP⟩)
    · exact ⟨a, List.mem_cons_self a l, h⟩
    · exact ⟨x, List.mem_cons_of_mem a hx, hP⟩

theorem exists_mem_perm {α : Type} {l₁ l₂ : List α} (h : l₁.Perm l₂) (P : α → Prop) :
    (∃ x ∈ l₁, P x) ↔ ∃ x ∈ l₂, P x := by
  constructor <;> rintro ⟨x, hx, hP⟩
  · exact ⟨x, h.mem_iff.mp hx, hP⟩
  · exact ⟨x, h.mem_iff.mpr hx, hP⟩

theorem exists_mem_build_tickets_id (T Pn C : Nat) (l : List Item) (pid : Nat) :
    (∃ t ∈ build_tickets T Pn C l, t.id = pid) ↔ ∃ it ∈ l, it.patient.id = pid := by
  have h1 : (∃ t ∈ build_tickets T Pn C l, t.id = pid) ↔
      pid ∈ (build_tickets T Pn C l).map (fun t => t.id) :=
    ⟨fun ⟨t, ht, hid⟩ => List.mem_map.mpr ⟨t, ht, hid⟩, fun h => List.mem_map.mp h⟩
  rw [h1, build_tickets_map_id]
  exact ⟨fun h => List.mem_map.mp h, fun ⟨it, hit, hid⟩ => List.mem_map.mpr ⟨it, hit, hid⟩⟩

theorem exists_patient_id_of_map_eq {l₁ l₂ : List Item}
    (h : l₁.map (fun it => it.patient) = l₂.map (fun it => it.patient)) (pid : Nat) :
    (∃ it ∈ l₁, it.patient.id = pid) ↔ ∃ it ∈ l₂, it.patient.id = pid := by
  constructor <;> rintro ⟨it, hit, hid⟩
  · have hmem : it.patient ∈ l₁.map (fun it => it.patient) :=
      List.mem_map_of_mem _ hit
    rw [h] at hmem
    obtain ⟨it', hit', heq⟩ := List.mem_map.mp hmem
    exact ⟨it', hit', by rw [heq]; exact hid⟩
  · have hmem : it.patient ∈ l₂.map (fun it => it.patient) :=
      List.mem_map_of_mem _ hit
    rw [← h] at hmem
    obtain ⟨it', hit', heq⟩ := List.mem_map.mp hmem
    exact ⟨it', hit', by rw [heq]; exact hid⟩

theorem split_items_mem_ids (mk : Patient → Item) (hmk : ∀ p, (mk p).patient = p)
    (fid? : Option Nat) (pid : Nat) :
    ∀ l : List Patient,
      ((∃ it, (split_items mk fid? l).1 = some it ∧ it.patient.id = pid) ∨
       (∃ it ∈ (split_items mk fid? l).2, it.patient.id = pid)) ↔
      ∃ p ∈ l, p.id = pid := by
  intro l
  induction l with
  | nil => simp [split_items]
  | cons p rest ih =>
    simp only [split_items]
    by_cases hp : some p.id = fid?
    · rw [if_pos hp]
      constructor
      · rintro (⟨it, hit, hid⟩ | ⟨it, hmem, hid⟩)
        · simp only [Option.some.injEq] at hit
          cases hs : (split_items mk fid? rest).1 with
          | some it' =>
            rw [hs] at hit
            simp only [Option.getD_some] at hit
            subst hit
            obtain ⟨p', hp', hid'⟩ := ih.mp (Or.inl ⟨it', hs, hid⟩)
            exact ⟨p', List.mem_cons_of_mem p hp', hid'⟩
          | none =>
            rw [hs] at hit
            simp only [Option.getD_none] at hit
            subst hit
            exact ⟨p, List.mem_cons_self p rest, by rw [← hmk p]; exact hid⟩
        · obtain ⟨p', hp', hid'⟩ := ih.mp (Or.inr ⟨it, hmem, hid⟩)
          exact ⟨p', List.mem_cons_of_mem p hp', hid'⟩
      · rintro ⟨p', hp', hid'⟩
        rcases List.mem_cons.mp hp' with rfl | hmem
        · left
          cases hs : (split_items mk fid? rest).1 with
          | some it' =>
            refine ⟨it', by simp, ?_⟩
            have h1 := split_items_fst_id mk hmk fid? rest it' hs
            rw [← hp] at h1
            rw [Option.some.inj h1]
            exact hid'
          | none =>
            exact ⟨mk p', by simp, by rw [hmk]; exact hid'⟩
        · rcases ih.mpr ⟨p', hmem, hid'⟩ with ⟨it, hit, hid⟩ | hr
          · exact Or.inl ⟨it, by simp [hit], hid⟩
          · exact Or.inr hr
    · rw [if_neg hp]
      constructor
      · rintro (hl | ⟨it, hmem, hid⟩)
        · obtain ⟨p', hp', hid'⟩ := ih.mp (Or.inl hl)
          exact ⟨p', List.mem_cons_of_mem p hp', hid'⟩
        · rcases List.mem_cons.mp hmem with rfl | hmem
          · exact ⟨p, List.mem_cons_self p rest, by rw [← hmk p]; exact hid⟩
          · obtain ⟨p', hp', hid'⟩ := ih.mp (Or.inr ⟨it, hmem, hid⟩)
            exact ⟨p', List.mem_cons_of_mem p hp', hid'⟩
      · rintro ⟨p', hp', hid'⟩
        rcases List.mem_cons.mp hp' with rfl | hmem
        · exact Or.inr ⟨mk p', List.mem_cons_self _ _, by rw [hmk]; exact hid'⟩
        · rcases ih.mpr ⟨p', hmem, hid'⟩ with hl | ⟨it, hit, hid⟩
          · exact Or.inl hl
          · exact Or.inr ⟨it, List.mem_cons_of_mem _ hit, hid⟩

theorem mem_waiting_iff (db : Db) (pid : Nat) :
    (∃ p ∈ waiting_patients db.patients db.appointments, p.id = pid) ↔
    ∃ p ∈ db.patients, p.id = pid ∧
      ∀ a ∈ db.appointments, a.status = "scheduled" → a.patient_id ≠ pid := by
  constructor
  · rintro ⟨p, hp, hid⟩
    simp only [waiting_patients, List.mem_filter] at hp
    obtain ⟨hmem, hcond⟩ := hp
    refine ⟨p, hmem, hid, ?_⟩
    intro a ha hst hpid
    have hnotin : p.id ∉ scheduled_patient_ids db.appointments := of_decide_eq_true hcond
    apply hnotin
    exact List.mem_map.mpr
      ⟨a, List.mem_filter.mpr ⟨ha, by simp [hst]⟩, by rw [hpid]; exact hid.symm⟩
  · rintro ⟨p, hmem, hid, hall⟩
    refine ⟨p, ?_, hid⟩
    simp only [waiting_patients, List.mem_filter]
    refine ⟨hmem, decide_eq_true ?_⟩
    intro hin
    obtain ⟨a, ha, hpa⟩ := List.mem_map.mp hin
    rw [List.mem_filter] at ha
    exact (hall a ha.1 (by simpa using ha.2)) (hpa.trans hid)

/-- C10: a patient id appears in a snapshot exactly when the database holds
a patient with that id and no appointment with status "scheduled" —
membership is decided by the database, not by the raw booking queue, so a
never-queued patient can appear, and a queued patient with a scheduled
appointment is omitted. -/
theorem snapshot_membership (o : Oracle) (db : Db) (q : List QueueEntry) (pid : Nat) :
    (∃ t ∈ calculate_queue_order o db q, t.id = pid) ↔
    (∃ p ∈ db.patients, p.id = pid ∧
      ∀ a ∈ db.appointments, a.status = "scheduled" → a.patient_id ≠ pid) := by
  have hmk : ∀ p, (mk_item db.appointments q p).patient = p := fun _ => rfl
  have hscored :
      (∃ it ∈ sort_scored (apply_rl o (pre_rl_items db q).2).1, it.patient.id = pid)
      ↔ ∃ it ∈ (pre_rl_items db q).2, it.patient.id = pid := by
    rw [exists_mem_perm (sort_scored_perm _)]
    exact exists_patient_id_of_map_eq (apply_rl_map_patient o _) pid
  have hsplit :
      ((∃ it, (pre_rl_items db q).1 = some it ∧ it.patient.id = pid) ∨
       (∃ it ∈ (pre_rl_items db q).2, it.patient.id = pid)) ↔
      ∃ p ∈ waiting_patients db.patients db.appointments, p.id = pid := by
    exact split_items_mem_ids (mk_item db.appointments q) hmk _ pid _
  rw [← mem_waiting_iff, ← hsplit]
  cases hf : (pre_rl_items db q).1 with
  | some f =>
    rw [calculate_cons_of_fst_some o db q f hf, exists_mem_cons_prop,
      exists_mem_build_tickets_id, hscored]
    constructor
    · rintro (h | h)
      · exact Or.inl ⟨f, rfl, h⟩
      · exact Or.inr h
    · rintro (⟨it, hit, hid⟩ | h)
      · rw [← Option.some.inj hit] at hid
        exact Or.inl hid
      · exact Or.inr h
  | none =>
    rw [calculate_of_fst_none o db q hf, exists_mem_build_tickets_id, hscored]
    constructor
    · intro h
      exact Or.inr h
    · rintro (⟨it, hit, _⟩ | h)
      · exact nomatch hit
      · exact h

end Theorems

end NaviMed
